import Mathlib

/-!
Shallow embedding of the staff task-reporting portal: the session token
codec (`lib/auth.ts`), the report submission state machine
(`app/api/reports/route.ts`), the task registry (`app/api/tasks/route.ts`
and `app/api/tasks/[id]/route.ts`) and the staff administration endpoints
(`app/api/staff/[id]/route.ts`).  Timestamps are natural numbers counting
milliseconds; the persistent store is lists of rows threaded explicitly
through each handler, and every handler returns the new store together
with an `Except` outcome mirroring the HTTP error taxonomy.
-/

namespace Adv

/-! ### Time arithmetic (`getDateRange` and the submission deadline) -/

/-- Milliseconds in one hour. -/
def msPerHour : Nat := 3600000

/-- Milliseconds in one day. -/
def msPerDay : Nat := 24 * msPerHour

/-- Midnight (00:00:00.000) of calendar day `d`: `new Date(dateStr)` followed
by `setHours(0, 0, 0, 0)`.  A date string denotes a calendar day index. -/
def startOfDay (d : Nat) : Nat := d * msPerDay

/-- End of calendar day `d` (23:59:59.999): `setHours(23, 59, 59, 999)`. -/
def endOfDay (d : Nat) : Nat := d * msPerDay + (msPerDay - 1)

/-- Noon of calendar day `d`: `reportDate.setHours(12, 0, 0, 0)`, the
normalized date stored on a newly created DailyReport row. -/
def noonOfDay (d : Nat) : Nat := d * msPerDay + 12 * msPerHour

/-- Submission deadline for day `d`: 24 hours after the end of the day
(`deadline.setHours(deadline.getHours() + 24)` applied to the end of day). -/
def submitDeadline (d : Nat) : Nat := endOfDay d + 24 * msPerHour

/-- Timestamp `x` falls inside calendar day `d`: the inclusive range
`gte: start, lte: end` produced by `getDateRange`. -/
def inDay (d x : Nat) : Bool := decide (startOfDay d ≤ x) && decide (x ≤ endOfDay d)

/-! ### Token codec (`lib/auth.ts`) -/

/-- Session claims carried by the token (the `SessionPayload` interface). -/
structure SessionPayload where
  userId : Nat
  username : String
  role : String
  expiresAt : Nat
deriving DecidableEq, Repr

/-- Numeric code of a list of characters, digit by digit in base `2 ^ 21`
(every Unicode scalar value is below `2 ^ 21 - 1`). -/
def listCode : List Char → Nat
  | [] => 0
  | c :: cs => listCode cs * 2097152 + (c.toNat + 1)

/-- Injective numeric code of a string, used to feed string claims to the
modelled MAC. -/
def strCode (s : String) : Nat := listCode s.data

/-- Numeric code of the signed material: the payload claims plus the
registered expiration `exp` set by `setExpirationTime`. -/
def claimsCode (p : SessionPayload) (exp : Nat) : Nat :=
  Nat.pair p.userId (Nat.pair (strCode p.username)
    (Nat.pair (strCode p.role) (Nat.pair p.expiresAt exp)))

/-- HMAC-SHA256 (`jose` HS256) modelled as an ideal MAC: collision-free over
the key and the signed claims.  The cryptographic primitive itself is
external to the repository. -/
def macSign (key : Nat) (p : SessionPayload) (exp : Nat) : Nat :=
  Nat.pair key (claimsCode p exp)

/-- Wire form of what `decrypt` may receive: no cookie at all (the
`if (!session)` guard), a string that is not a well-formed JWT (rejected
inside `jwtVerify`), or a JWT carrying claims, a registered expiry and a
MAC value. -/
inductive Wire where
  | missing : Wire
  | malformed : Nat → Wire
  | token : SessionPayload → Nat → Nat → Wire
deriving DecidableEq, Repr

/-- The `encrypt` function: signs the claims with HS256 and sets the
registered expiration one day (`"1d"`) after the issue time `now`. -/
def encrypt (key now : Nat) (p : SessionPayload) : Wire :=
  Wire.token p (now + msPerDay) (macSign key p (now + msPerDay))

/-- The `decrypt` function: `jwtVerify` checks the MAC and that the token
has not expired (failing exactly when `exp ≤ now`); every failure is caught
by the surrounding `try`/`catch` and returns `none`. -/
def decrypt (key now : Nat) (w : Wire) : Option SessionPayload :=
  match w with
  | Wire.missing => none
  | Wire.malformed _ => none
  | Wire.token p exp mac =>
    if mac = macSign key p exp ∧ now < exp then some p else none

/-- The payload built by `createSession`: `expiresAt = Date.now() + 24h`. -/
def mkSessionPayload (uid : Nat) (un rl : String) (now : Nat) : SessionPayload :=
  ⟨uid, un, rl, now + msPerDay⟩

/-! ### Data model (rows of the persistent store) -/

/-- A Task row. -/
structure Task where
  id : Nat
  date : Nat
  taskName : String
  plan : String
  result : String
  userId : Nat
  createdAt : Nat
deriving DecidableEq, Repr

/-- A DailyReport row (`DailyReport` table with its unique
`(date, userId)` index). -/
structure DailyReport where
  id : Nat
  date : Nat
  userId : Nat
  submitted : Bool
  submittedAt : Option Nat
  createdAt : Nat
deriving DecidableEq, Repr

/-- A User row. -/
structure User where
  id : Nat
  username : String
  password : String
  role : String
  position : Option String
  createdAt : Nat
deriving DecidableEq, Repr

/-- The data store the handlers query and mutate, with the id counter the
report table will assign next. -/
structure Store where
  users : List User
  tasks : List Task
  reports : List DailyReport
  nextReportId : Nat
deriving DecidableEq, Repr

/-- Handler-level failures, mirroring the error taxonomy of the JSON
responses. -/
inductive Err where
  | validation : Err
  | deadlinePassed : Err
  | noTasks : Err
  | notFound : Err
  | unauthorized : Err
  | conflict : Err
deriving DecidableEq, Repr

/-- Decidable equality of handler outcomes, for evaluating the handlers on
concrete inputs. -/
instance {ε α : Type} [DecidableEq ε] [DecidableEq α] : DecidableEq (Except ε α) := fun a b =>
  match a, b with
  | Except.error e, Except.error f =>
    if h : e = f then isTrue (by rw [h]) else isFalse (by intro hc; cases hc; exact h rfl)
  | Except.ok x, Except.ok y =>
    if h : x = y then isTrue (by rw [h]) else isFalse (by intro hc; cases hc; exact h rfl)
  | Except.error _, Except.ok _ => isFalse (by intro hc; cases hc)
  | Except.ok _, Except.error _ => isFalse (by intro hc; cases hc)

/-- The where clause `userId, date: { gte: start, lte: end }` the reports
route uses to look up the reports of user `uid` on day `d`. -/
def reportMatch (uid d : Nat) (r : DailyReport) : Bool :=
  r.userId == uid && inDay d r.date

/-- The same where clause applied to Task rows (`prisma.task.count`). -/
def taskMatch (uid d : Nat) (t : Task) : Bool :=
  t.userId == uid && inDay d t.date

/-- DailyReport rows of user `uid` whose date falls on day `d`. -/
def Store.reportsFor (s : Store) (d uid : Nat) : List DailyReport :=
  s.reports.filter (reportMatch uid d)

/-- The task count checked before a submit (`prisma.task.count`). -/
def Store.taskCount (s : Store) (d uid : Nat) : Nat :=
  (s.tasks.filter (taskMatch uid d)).length

/-! ### Report submission state machine (`app/api/reports/route.ts`) -/

/-- The `POST /api/reports` handler after the session and date-presence
guards (the authenticated session is the `sess` argument): deadline check,
task-count check, then update of the existing report found by `findFirst`,
or creation of a new report dated noon of the day. -/
def submitReport (s : Store) (sess : SessionPayload) (d now : Nat) :
    Store × Except Err DailyReport :=
  if now > submitDeadline d then
    (s, Except.error Err.deadlinePassed)
  else if s.taskCount d sess.userId = 0 then
    (s, Except.error Err.noTasks)
  else
    match s.reports.find? (reportMatch sess.userId d) with
    | some r =>
      ({ s with reports := s.reports.map (fun q =>
          if q.id == r.id then { r with submitted := true, submittedAt := some now } else q) },
        Except.ok { r with submitted := true, submittedAt := some now })
    | none =>
      ({ s with
          reports := s.reports ++
            [{ id := s.nextReportId, date := noonOfDay d, userId := sess.userId,
               submitted := true, submittedAt := some now, createdAt := now }],
          nextReportId := s.nextReportId + 1 },
        Except.ok
          { id := s.nextReportId, date := noonOfDay d, userId := sess.userId,
            submitted := true, submittedAt := some now, createdAt := now })

/-- The `DELETE /api/reports` handler after the session and date-presence
guards: find the caller's report for the day via `findFirst`, fail with
NotFound when absent, otherwise delete that row by id. -/
def withdrawReport (s : Store) (sess : SessionPayload) (d : Nat) :
    Store × Except Err Unit :=
  match s.reports.find? (reportMatch sess.userId d) with
  | none => (s, Except.error Err.notFound)
  | some r =>
    ({ s with reports := s.reports.filter (fun q => !(q.id == r.id)) }, Except.ok ())

/-- Report rows have pairwise distinct ids, all below the id the store
will assign next (the autoincrement primary key). -/
def Store.ReportIdsOk (s : Store) : Prop :=
  s.reports.Pairwise (fun a b => a.id ≠ b.id) ∧ ∀ r ∈ s.reports, r.id < s.nextReportId

/-- The at-most-one-DailyReport-per-(date, userId) invariant
(`DailyReport_date_userId_key`), read at day granularity exactly as the
routes query the table. -/
def Store.UniqueReport (s : Store) : Prop :=
  ∀ d uid, (s.reportsFor d uid).length ≤ 1

/-! ### Task registry (`app/api/tasks/route.ts`, `app/api/tasks/[id]/route.ts`) -/

/-- Partial update body of `PUT /api/tasks/[id]`: a missing field is `none`
(`undefined` in the JSON body). -/
structure TaskUpdate where
  taskName : Option String
  plan : Option String
  result : Option String
deriving DecidableEq, Repr

/-- The user scoping of the `GET /api/tasks` where clause: an admin with a
`userId` query parameter gets that user's rows, a staff session always gets
its own rows, any other case is unscoped. -/
def taskUserScope (s : Store) (sess : SessionPayload) (userIdQ : Option Nat) :
    List Task :=
  if sess.role == "admin" && userIdQ.isSome then
    s.tasks.filter (fun t => t.userId == userIdQ.getD 0)
  else if sess.role == "staff" then
    s.tasks.filter (fun t => t.userId == sess.userId)
  else
    s.tasks

/-- The `GET /api/tasks` handler after the session guard: user scoping plus
an optional date filter over the half-open day interval
`[date 00:00, date+1 00:00)`.  The route additionally orders rows by
`createdAt` and joins the owning user for display; both are presentation
concerns omitted here. -/
def listTasks (s : Store) (sess : SessionPayload) (dateQ userIdQ : Option Nat) :
    List Task :=
  match dateQ with
  | some dd => (taskUserScope s sess userIdQ).filter (fun t =>
      decide (startOfDay dd ≤ t.date) && decide (t.date < startOfDay (dd + 1)))
  | none => taskUserScope s sess userIdQ

/-- The row written by `PUT /api/tasks/[id]`: each supplied field replaces
the prior value, each omitted field keeps it (`taskName !== undefined ?
taskName : existingTask.taskName` and likewise for plan and result). -/
def taskUpdateRow (t : Task) (b : TaskUpdate) : Task :=
  { t with taskName := b.taskName.getD t.taskName,
           plan := b.plan.getD t.plan,
           result := b.result.getD t.result }

/-- The `PUT /api/tasks/[id]` handler after the session guard: existence
check, then ownership check (admin may mutate any task), then the update. -/
def updateTask (s : Store) (sess : SessionPayload) (taskId : Nat) (b : TaskUpdate) :
    Store × Except Err Task :=
  match s.tasks.find? (fun t => t.id == taskId) with
  | none => (s, Except.error Err.notFound)
  | some t =>
    if sess.role != "admin" && t.userId != sess.userId then
      (s, Except.error Err.unauthorized)
    else
      ({ s with tasks := s.tasks.map (fun q =>
          if q.id == taskId then taskUpdateRow t b else q) },
        Except.ok (taskUpdateRow t b))

/-- The `DELETE /api/tasks/[id]` handler after the session guard: existence
check, then ownership check (admin may delete any task), then the delete. -/
def deleteTask (s : Store) (sess : SessionPayload) (taskId : Nat) :
    Store × Except Err Unit :=
  match s.tasks.find? (fun t => t.id == taskId) with
  | none => (s, Except.error Err.notFound)
  | some t =>
    if sess.role != "admin" && t.userId != sess.userId then
      (s, Except.error Err.unauthorized)
    else
      ({ s with tasks := s.tasks.filter (fun q => !(q.id == taskId)) }, Except.ok ())

/-! ### Staff administration (`app/api/staff/[id]/route.ts`) -/

/-- Stand-in for the external bcrypt hash, an opaque one-way primitive
outside the repository; only its application site is modelled. -/
def bcryptHash (pw : String) : String := "bcrypt$" ++ pw

/-- The row written by `PUT /api/staff/[id]`: username and position are
always set, the password is rehashed only when supplied truthy (a missing
or empty password keeps the prior hash). -/
def staffUpdateRow (u : User) (username : String) (password : Option String)
    (pos : String) : User :=
  { u with
    username := username,
    position := some pos,
    password := (match password with
      | some pw => if pw == "" then u.password else bcryptHash pw
      | none => u.password) }

/-- The `PUT /api/staff/[id]` handler: admin guard, body validation,
existence-and-staff-role check (`!existingUser || existingUser.role !==
"staff"` yields NotFound), username-conflict check, then the update. -/
def updateStaff (s : Store) (sess : SessionPayload) (staffId : Nat)
    (username : String) (password : Option String) (pos : String) :
    Store × Except Err User :=
  if sess.role != "admin" then (s, Except.error Err.unauthorized)
  else if username == "" || pos == "" then (s, Except.error Err.validation)
  else
    match s.users.find? (fun u => u.id == staffId) with
    | none => (s, Except.error Err.notFound)
    | some u =>
      if u.role != "staff" then (s, Except.error Err.notFound)
      else if (s.users.find? (fun v => v.username == username && !(v.id == staffId))).isSome then
        (s, Except.error Err.conflict)
      else
        ({ s with users := s.users.map (fun v =>
            if v.id == staffId then staffUpdateRow u username password pos else v) },
          Except.ok (staffUpdateRow u username password pos))

/-- The `DELETE /api/staff/[id]` handler: admin guard,
existence-and-staff-role check, then the delete. -/
def deleteStaff (s : Store) (sess : SessionPayload) (staffId : Nat) :
    Store × Except Err Unit :=
  if sess.role != "admin" then (s, Except.error Err.unauthorized)
  else
    match s.users.find? (fun u => u.id == staffId) with
    | none => (s, Except.error Err.notFound)
    | some u =>
      if u.role != "staff" then (s, Except.error Err.notFound)
      else ({ s with users := s.users.filter (fun v => !(v.id == staffId)) }, Except.ok ())

/-! ### Concrete fixtures used to instantiate the claims -/

/-- A staff session for user 1. -/
def aliceSession : SessionPayload :=
  { userId := 1, username := "alice", role := "staff", expiresAt := 0 }

/-- A staff session for user 2. -/
def bobSession : SessionPayload :=
  { userId := 2, username := "bob", role := "staff", expiresAt := 0 }

/-- An admin session. -/
def adminSession : SessionPayload :=
  { userId := 99, username := "admin", role := "admin", expiresAt := 0 }

/-- A store with no rows at all. -/
def emptyStore : Store := { users := [], tasks := [], reports := [], nextReportId := 1 }

/-- A task owned by user 1 on day 0. -/
def task1 : Task :=
  { id := 1, date := noonOfDay 0, taskName := "Write copy", plan := "5",
    result := "", userId := 1, createdAt := 0 }

/-- A store holding only `task1`. -/
def store1 : Store := { users := [], tasks := [task1], reports := [], nextReportId := 1 }

/-- The report created by submitting `store1` for day 0 at time 0. -/
def report1 : DailyReport :=
  { id := 1, date := noonOfDay 0, userId := 1, submitted := true,
    submittedAt := some 0, createdAt := 0 }

/-- The store after that first submission. -/
def store2 : Store := { users := [], tasks := [task1], reports := [report1], nextReportId := 2 }

/-- An admin user row. -/
def adminUser : User :=
  { id := 9, username := "boss", password := "h", role := "admin",
    position := none, createdAt := 0 }

/-- A store whose only user is the admin row. -/
def storeU : Store := { users := [adminUser], tasks := [], reports := [], nextReportId := 1 }

/-! ### Day-range arithmetic lemmas -/

theorem inDay_iff (d x : Nat) : inDay d x = true ↔ x / msPerDay = d := by
  simp only [inDay, startOfDay, endOfDay, msPerDay, msPerHour,
    Bool.and_eq_true, decide_eq_true_eq]
  omega

theorem inDay_noon (d e : Nat) : inDay e (noonOfDay d) = true ↔ e = d := by
  rw [inDay_iff]
  simp only [noonOfDay, msPerDay, msPerHour]
  omega

/-! ### Token codec lemmas and claims C4, C5 -/

theorem char_digit_lt (c : Char) : c.toNat + 1 < 2097152 := by
  have h := c.valid
  simp only [UInt32.isValidChar, Nat.isValidChar, Char.toNat] at *
  rcases h with h | h <;> omega

theorem listCode_injective : ∀ l m : List Char, listCode l = listCode m → l = m := by
  intro l
  induction l with
  | nil =>
    intro m h
    cases m with
    | nil => rfl
    | cons d ds =>
      exfalso
      simp only [listCode] at h
      have hd := char_digit_lt d
      omega
  | cons c cs ih =>
    intro m h
    cases m with
    | nil =>
      exfalso
      simp only [listCode] at h
      have hc := char_digit_lt c
      omega
    | cons d ds =>
      simp only [listCode] at h
      have hc := char_digit_lt c
      have hd := char_digit_lt d
      have h1 : c.toNat = d.toNat ∧ listCode cs = listCode ds := by omega
      have hcd : c = d := by
        apply Char.eq_of_val_eq
        apply UInt32.ext
        simpa [Char.toNat] using h1.1
      rw [hcd, ih ds h1.2]

theorem strCode_injective {s t : String} (h : strCode s = strCode t) : s = t := by
  cases s with
  | mk ds =>
    cases t with
    | mk es =>
      simp only [strCode] at h
      rw [listCode_injective ds es h]

theorem macSign_inj {key : Nat} {p q : SessionPayload} {e f : Nat}
    (h : macSign key q f = macSign key p e) : q = p ∧ f = e := by
  simp only [macSign, claimsCode, Nat.pair_eq_pair] at h
  obtain ⟨-, h1, h2, h3, h4, h5⟩ := h
  refine ⟨?_, h5⟩
  cases p with
  | mk pu pn pr pe =>
    cases q with
    | mk qu qn qr qe =>
      simp only at h1 h2 h3 h4
      rw [h1, h4, strCode_injective h2, strCode_injective h3]

/-- Claim C4: for every valid session (one whose `expiresAt` is 24 hours
after the time `t` at which it is encoded, as `createSession` produces),
`decrypt` of `encrypt` reproduces the original claims exactly as long as
the expiration has not elapsed, and returns `none` once `expiresAt` has
elapsed. -/
theorem claim_C4_decode_encode_roundtrip (key t now : Nat) (p : SessionPayload)
    (hvalid : p.expiresAt = t + msPerDay) :
    (now < p.expiresAt → decrypt key now (encrypt key t p) = some p) ∧
    (p.expiresAt ≤ now → decrypt key now (encrypt key t p) = none) := by
  constructor <;> intro h <;> rw [hvalid] at h <;> simp only [encrypt, decrypt]
  · rw [if_pos ⟨trivial, h⟩]
  · rw [if_neg]
    intro hc
    exact absurd hc.2 (Nat.not_lt.mpr h)

theorem claim_C4_decode_encode_roundtrip_witness :
    decrypt 7 5 (encrypt 7 0 (mkSessionPayload 1 "alice" "staff" 0)) =
      some (mkSessionPayload 1 "alice" "staff" 0) ∧
    decrypt 7 msPerDay (encrypt 7 0 (mkSessionPayload 1 "alice" "staff" 0)) = none := by
  constructor
  · exact (claim_C4_decode_encode_roundtrip 7 0 5 _ rfl).1 (by decide)
  · exact (claim_C4_decode_encode_roundtrip 7 0 msPerDay _ rfl).2 (by decide)

/-- Claim C5: `decrypt` returns `none` — and, being a total function into
`Option`, never raises to the caller — on a missing token, a malformed
structure, a signature mismatch, an elapsed expiry, and on any genuine
token whose signed material (claims or registered expiry) has been altered
while keeping the original MAC; the returned value is the same `none` in
every case, distinguishing none of the causes. -/
theorem claim_C5_decrypt_fail_soft (key now : Nat) :
    decrypt key now Wire.missing = none ∧
    (∀ raw, decrypt key now (Wire.malformed raw) = none) ∧
    (∀ p exp mac, mac ≠ macSign key p exp →
      decrypt key now (Wire.token p exp mac) = none) ∧
    (∀ p exp mac, exp ≤ now → decrypt key now (Wire.token p exp mac) = none) ∧
    (∀ t p q e, ¬(q = p ∧ e = t + msPerDay) →
      decrypt key now (Wire.token q e (macSign key p (t + msPerDay))) = none) := by
  refine ⟨rfl, fun raw => rfl, fun p exp mac hm => ?_, fun p exp mac he => ?_,
    fun t p q e hne => ?_⟩
  · simp only [decrypt]
    rw [if_neg]
    intro hc
    exact hm hc.1
  · simp only [decrypt]
    rw [if_neg]
    intro hc
    exact absurd hc.2 (Nat.not_lt.mpr he)
  · simp only [decrypt]
    rw [if_neg]
    intro hc
    exact hne (macSign_inj hc.1.symm)

theorem claim_C5_decrypt_fail_soft_witness :
    decrypt 7 5 Wire.missing = none ∧
    decrypt 7 5 (Wire.malformed 3) = none ∧
    decrypt 7 5 (Wire.token (mkSessionPayload 1 "alice" "staff" 0) msPerDay 0) = none ∧
    decrypt 7 msPerDay
      (Wire.token (mkSessionPayload 1 "alice" "staff" 0) msPerDay
        (macSign 7 (mkSessionPayload 1 "alice" "staff" 0) msPerDay)) = none ∧
    decrypt 7 5
      (Wire.token (mkSessionPayload 2 "mallory" "admin" 0) msPerDay
        (macSign 7 (mkSessionPayload 1 "alice" "staff" 0) (0 + msPerDay))) = none := by
  refine ⟨(claim_C5_decrypt_fail_soft 7 5).1,
    (claim_C5_decrypt_fail_soft 7 5).2.1 3,
    (claim_C5_decrypt_fail_soft 7 5).2.2.1 _ msPerDay 0 (by decide),
    (claim_C5_decrypt_fail_soft 7 msPerDay).2.2.2.1 _ msPerDay _ (by decide),
    (claim_C5_decrypt_fail_soft 7 5).2.2.2.2 0 _ _ msPerDay (by decide)⟩

/-! ### List-level helper lemmas for the report table -/

theorem eq_of_mem_of_id_eq {l : List DailyReport}
    (hp : l.Pairwise (fun a b => a.id ≠ b.id)) {r q : DailyReport}
    (hr : r ∈ l) (hq : q ∈ l) (h : q.id = r.id) : q = r := by
  induction l with
  | nil => cases hr
  | cons a tl ih =>
    rw [List.pairwise_cons] at hp
    rcases List.mem_cons.mp hr with hr1 | hr2 <;> rcases List.mem_cons.mp hq with hq1 | hq2
    · rw [hq1, hr1]
    · exact absurd (hr1 ▸ h).symm (hp.1 q hq2)
    · exact absurd (hq1 ▸ h) (hp.1 r hr2)
    · exact ih hp.2 hr2 hq2

theorem length_le_one_mem {α : Type} {l : List α} {a : α}
    (h : l.length ≤ 1) (ha : a ∈ l) : l = [a] := by
  cases l with
  | nil => cases ha
  | cons x tl =>
    cases tl with
    | nil =>
      rcases List.mem_cons.mp ha with h1 | h2
      · rw [h1]
      · cases h2
    | cons y tl2 => simp at h

theorem find?_eq_some_of_filter_singleton {α : Type} {p : α → Bool} {l : List α} {a : α}
    (h : l.filter p = [a]) : l.find? p = some a := by
  induction l with
  | nil => simp at h
  | cons x tl ih =>
    by_cases hx : p x = true
    · rw [List.filter_cons_of_pos hx] at h
      have hxa : x = a := (List.cons_eq_cons.mp h).1
      rw [List.find?_cons_of_pos _ hx, hxa]
    · rw [List.filter_cons_of_neg (by simp [hx])] at h
      rw [List.find?_cons_of_neg _ (by simp [hx])]
      exact ih h

theorem replaced_id (r r' q : DailyReport) (hid : r'.id = r.id) :
    (if q.id == r.id then r' else q).id = q.id := by
  by_cases h : q.id = r.id
  · simp [h, hid]
  · simp [h]

theorem filter_map_replace (l : List DailyReport) (r r' : DailyReport)
    (hp : l.Pairwise (fun a b => a.id ≠ b.id)) (hr : r ∈ l) (hid : r'.id = r.id)
    (p : DailyReport → Bool) (hpr : p r' = p r) :
    (l.map (fun q => if q.id == r.id then r' else q)).filter p =
      (l.filter p).map (fun q => if q.id == r.id then r' else q) := by
  rw [List.filter_map]
  apply congrArg
  apply List.filter_congr
  intro q hq
  by_cases hcase : q.id = r.id
  · have hqr : q = r := eq_of_mem_of_id_eq hp hr hq hcase
    subst hqr
    simp [hcase, hpr]
  · simp [hcase]

theorem filter_ne_id_length {l : List DailyReport} {r : DailyReport}
    (hp : l.Pairwise (fun a b => a.id ≠ b.id)) (hr : r ∈ l) :
    (l.filter (fun q => !(q.id == r.id))).length + 1 = l.length := by
  induction l with
  | nil => cases hr
  | cons a tl ih =>
    rw [List.pairwise_cons] at hp
    rcases List.mem_cons.mp hr with h1 | h2
    · rw [List.filter_cons_of_neg (by simp [h1])]
      rw [List.filter_eq_self.mpr]
      · simp
      · intro q hq
        simp only [Bool.not_eq_eq_eq_not, Bool.not_true, beq_eq_false_iff_ne]
        exact fun hqa => hp.1 q hq (h1 ▸ hqa).symm
    · have hne : a.id ≠ r.id := fun hh => hp.1 r h2 hh
      rw [List.filter_cons_of_pos (by simp [hne])]
      simp only [List.length_cons]
      rw [ih hp.2 h2]

/-! ### Structural lemmas about `submitReport` -/

theorem submitReport_tasks (s : Store) (sess : SessionPayload) (d now : Nat) :
    (submitReport s sess d now).1.tasks = s.tasks := by
  unfold submitReport
  split
  · rfl
  · split
    · rfl
    · split <;> rfl

theorem submitReport_idsOk (s : Store) (sess : SessionPayload) (d now : Nat)
    (h : s.ReportIdsOk) : (submitReport s sess d now).1.ReportIdsOk := by
  unfold submitReport
  split
  · exact h
  · split
    · exact h
    · split
      next r heq =>
        refine ⟨List.pairwise_map.mpr (h.1.imp ?_), ?_⟩
        · intro a b hab
          rw [replaced_id r { r with submitted := true, submittedAt := some now } a rfl,
            replaced_id r { r with submitted := true, submittedAt := some now } b rfl]
          exact hab
        · intro x hx
          obtain ⟨q, hq, rfl⟩ := List.mem_map.mp hx
          rw [replaced_id r { r with submitted := true, submittedAt := some now } q rfl]
          exact h.2 q hq
      next heq =>
        refine ⟨List.pairwise_append.mpr ⟨h.1, List.pairwise_singleton _ _, ?_⟩, ?_⟩
        · intro a ha b hb
          rw [List.mem_singleton] at hb
          subst hb
          exact Nat.ne_of_lt (h.2 a ha)
        · intro x hx
          rcases List.mem_append.mp hx with h1 | h1
          · exact Nat.lt_succ_of_lt (h.2 x h1)
          · rw [List.mem_singleton] at h1
            subst h1
            exact Nat.lt_succ_self _

theorem unique_append_new (l : List DailyReport) (x : DailyReport) (uid dd : Nat)
    (hfind : l.find? (reportMatch uid dd) = none)
    (h : ∀ a b, (l.filter (reportMatch b a)).length ≤ 1)
    (hxu : x.userId = uid) (hxd : x.date = noonOfDay dd) :
    ∀ d' uid', ((l ++ [x]).filter (reportMatch uid' d')).length ≤ 1 := by
  intro d' uid'
  rw [List.filter_append]
  by_cases hpr : reportMatch uid' d' x = true
  · have h1 : uid = uid' ∧ d' = dd := by
      simp only [reportMatch, hxu, hxd, Bool.and_eq_true, beq_iff_eq, inDay_noon] at hpr
      exact hpr
    have h0 : l.filter (reportMatch uid' d') = [] := by
      rw [List.filter_eq_nil_iff]
      intro a ha hpa
      have hnone : ¬ reportMatch uid dd a = true := by
        simpa using List.find?_eq_none.mp hfind a ha
      rw [h1.1, ← h1.2] at hnone
      exact hnone hpa
    rw [h0, List.filter_cons_of_pos hpr, List.filter_nil]
    simp
  · rw [List.filter_cons_of_neg (by simpa using hpr), List.filter_nil, List.append_nil]
    exact h d' uid'

theorem submitReport_unique (s : Store) (sess : SessionPayload) (d now : Nat)
    (hids : s.ReportIdsOk) (h : s.UniqueReport) :
    (submitReport s sess d now).1.UniqueReport := by
  unfold submitReport
  split
  · exact h
  · split
    · exact h
    · split
      next r heq =>
        intro d' uid'
        have hr : r ∈ s.reports := List.mem_of_find?_eq_some heq
        simp only [Store.reportsFor]
        rw [filter_map_replace s.reports r
          { r with submitted := true, submittedAt := some now }
          hids.1 hr rfl (reportMatch uid' d') rfl, List.length_map]
        exact h d' uid'
      next heq =>
        intro d' uid'
        simp only [Store.reportsFor]
        exact unique_append_new s.reports _ sess.userId d heq (fun a b => h a b) rfl rfl d' uid'

theorem submitReport_ok_reportsFor {s s' : Store} {sess : SessionPayload} {d now : Nat}
    {r1 : DailyReport} (hids : s.ReportIdsOk) (huni : s.UniqueReport)
    (hok : submitReport s sess d now = (s', Except.ok r1)) :
    s'.reportsFor d sess.userId = [r1] := by
  unfold submitReport at hok
  split at hok
  · exact absurd (congrArg Prod.snd hok) (by simp)
  · split at hok
    · exact absurd (congrArg Prod.snd hok) (by simp)
    · split at hok
      next r heq =>
        have hr : r ∈ s.reports := List.mem_of_find?_eq_some heq
        have hpred : reportMatch sess.userId d r = true := List.find?_some heq
        have hone : s.reports.filter (reportMatch sess.userId d) = [r] :=
          length_le_one_mem (huni d sess.userId) (List.mem_filter.mpr ⟨hr, hpred⟩)
        rw [Prod.mk.injEq] at hok
        obtain ⟨hs', hr1⟩ := hok
        rw [← hs']
        simp only [Store.reportsFor]
        rw [filter_map_replace s.reports r
          { r with submitted := true, submittedAt := some now }
          hids.1 hr rfl (reportMatch sess.userId d) rfl, hone]
        injection hr1 with hr1
        rw [← hr1]
        simp
      next heq =>
        rw [Prod.mk.injEq] at hok
        obtain ⟨hs', hr1⟩ := hok
        rw [← hs']
        simp only [Store.reportsFor, List.filter_append]
        have h0 : s.reports.filter (reportMatch sess.userId d) = [] := by
          rw [List.filter_eq_nil_iff]
          intro a ha hpa
          exact absurd hpa (by simpa using List.find?_eq_none.mp heq a ha)
        rw [h0]
        have hpr : reportMatch sess.userId d
            { id := s.nextReportId, date := noonOfDay d, userId := sess.userId,
              submitted := true, submittedAt := some now, createdAt := now } = true := by
          simp [reportMatch, inDay_noon]
        rw [List.nil_append, List.filter_cons_of_pos hpr, List.filter_nil]
        injection hr1 with hr1
        rw [← hr1]

/-! ### Claims about the report submission state machine -/

/-- Claim C2: for every submit call (first submission or resubmission, any
role), if `now > endOfDay(date) + 24h` the call fails with DeadlinePassed
and performs no mutation of any DailyReport or Task row; the check is
evaluated before any state change and does not depend on whether a report
exists for the pair. -/
theorem claim_C2_deadline_rejects (s : Store) (sess : SessionPayload) (d now : Nat)
    (h : now > submitDeadline d) :
    submitReport s sess d now = (s, Except.error Err.deadlinePassed) := by
  unfold submitReport
  rw [if_pos h]

theorem claim_C2_deadline_rejects_witness :
    submitReport store1 aliceSession 0 200000000 =
      (store1, Except.error Err.deadlinePassed) :=
  claim_C2_deadline_rejects store1 aliceSession 0 200000000 (by decide)

/-- Claim C3 counterexample: a submit with a zero task count that is also
past the deadline fails with DeadlinePassed, not NoTasksToSubmit, so the
unconditional form of the claim is false. -/
theorem claim_C3_counterexample :
    emptyStore.taskCount 0 aliceSession.userId = 0 ∧
    (submitReport emptyStore aliceSession 0 200000000).2 ≠ Except.error Err.noTasks ∧
    (submitReport emptyStore aliceSession 0 200000000).2 =
      Except.error Err.deadlinePassed := by
  exact ⟨by decide, by decide, by decide⟩

/-- Claim C3 (amended): for every submit call that passes the deadline
check, a zero task count for (date, userId) fails with NoTasksToSubmit
regardless of the caller's role and leaves the store unchanged, and a
nonzero task count never yields NoTasksToSubmit. -/
theorem claim_C3_no_tasks (s : Store) (sess : SessionPayload) (d now : Nat)
    (hd : now ≤ submitDeadline d) :
    (s.taskCount d sess.userId = 0 →
      submitReport s sess d now = (s, Except.error Err.noTasks)) ∧
    (s.taskCount d sess.userId ≠ 0 →
      (submitReport s sess d now).2 ≠ Except.error Err.noTasks) := by
  constructor
  · intro h0
    unfold submitReport
    rw [if_neg (by omega), if_pos h0]
  · intro h0
    unfold submitReport
    rw [if_neg (by omega), if_neg h0]
    split <;> simp

theorem claim_C3_no_tasks_witness :
    submitReport emptyStore aliceSession 0 5 = (emptyStore, Except.error Err.noTasks) ∧
    (submitReport store1 aliceSession 0 5).2 ≠ Except.error Err.noTasks :=
  ⟨(claim_C3_no_tasks emptyStore aliceSession 0 5 (by decide)).1 (by decide),
    (claim_C3_no_tasks store1 aliceSession 0 5 (by decide)).2 (by decide)⟩

/-- Claim C1: submitting twice for the same (date, userId) pair before the
deadline makes the second submit update `submittedAt` on the already
existing report — same report id, `submitted` stays true — and leaves
exactly one DailyReport row for that pair; moreover the
at-most-one-report-per-(date, userId) invariant is preserved by every
submit. -/
theorem claim_C1_submit_twice (s : Store) (sess : SessionPayload) (d now1 now2 : Nat) :
    (∀ s1 r1, s.ReportIdsOk → s.UniqueReport →
      submitReport s sess d now1 = (s1, Except.ok r1) →
      now2 ≤ submitDeadline d →
      ∃ s2 r2, submitReport s1 sess d now2 = (s2, Except.ok r2) ∧
        r2.id = r1.id ∧ r2.submitted = true ∧ r2.submittedAt = some now2 ∧
        (s2.reportsFor d sess.userId).length = 1) ∧
    (s.ReportIdsOk → s.UniqueReport → (submitReport s sess d now1).1.UniqueReport) := by
  constructor
  · intro s1 r1 hids huni hok hd2
    have hids1 : s1.ReportIdsOk := by
      have h := submitReport_idsOk s sess d now1 hids
      rwa [hok] at h
    have huni1 : s1.UniqueReport := by
      have h := submitReport_unique s sess d now1 hids huni
      rwa [hok] at h
    have hfor1 : s1.reportsFor d sess.userId = [r1] :=
      submitReport_ok_reportsFor hids huni hok
    have htasks : s1.tasks = s.tasks := by
      have h := submitReport_tasks s sess d now1
      rwa [hok] at h
    have hcount : s.taskCount d sess.userId ≠ 0 := by
      intro hc
      unfold submitReport at hok
      by_cases h1 : now1 > submitDeadline d
      · rw [if_pos h1] at hok
        exact absurd (congrArg Prod.snd hok) (by simp)
      · rw [if_neg h1, if_pos hc] at hok
        exact absurd (congrArg Prod.snd hok) (by simp)
    have hcount1 : s1.taskCount d sess.userId ≠ 0 := by
      have h : s1.taskCount d sess.userId = s.taskCount d sess.userId := by
        unfold Store.taskCount
        rw [htasks]
      rw [h]
      exact hcount
    have hfind1 : s1.reports.find? (reportMatch sess.userId d) = some r1 := by
      apply find?_eq_some_of_filter_singleton
      simpa [Store.reportsFor] using hfor1
    have heval : submitReport s1 sess d now2 =
        ({ s1 with reports := s1.reports.map (fun q =>
            if q.id == r1.id then { r1 with submitted := true, submittedAt := some now2 }
            else q) },
          Except.ok { r1 with submitted := true, submittedAt := some now2 }) := by
      unfold submitReport
      rw [if_neg (by omega), if_neg hcount1, hfind1]
    refine ⟨_, _, heval, rfl, rfl, rfl, ?_⟩
    rw [submitReport_ok_reportsFor hids1 huni1 heval]
    rfl
  · intro hids huni
    exact submitReport_unique s sess d now1 hids huni

theorem claim_C1_submit_twice_witness :
    ∃ s2 r2, submitReport store2 aliceSession 0 5 = (s2, Except.ok r2) ∧
      r2.id = report1.id ∧ r2.submitted = true ∧ r2.submittedAt = some 5 ∧
      (s2.reportsFor 0 aliceSession.userId).length = 1 :=
  (claim_C1_submit_twice store1 aliceSession 0 0 5).1 store2 report1
    ⟨List.Pairwise.nil, fun r hr => absurd hr (List.not_mem_nil r)⟩
    (fun dd uid => by simp [Store.reportsFor, store1])
    (by decide) (by decide)

/-- Claim C6: withdrawing with session `sess` and date `d` fails with
NotFound and leaves the store unchanged when no DailyReport exists for
`(d, sess.userId)`; when one exists, that row and only that row is deleted
entirely — a subsequent query for the pair shows absence — while Task and
User rows are untouched. -/
theorem claim_C6_withdraw (s : Store) (sess : SessionPayload) (d : Nat) :
    (s.reports.find? (reportMatch sess.userId d) = none →
      withdrawReport s sess d = (s, Except.error Err.notFound)) ∧
    (∀ r, s.ReportIdsOk → s.UniqueReport →
      s.reports.find? (reportMatch sess.userId d) = some r →
      ∃ s', withdrawReport s sess d = (s', Except.ok ()) ∧
        r ∉ s'.reports ∧
        (∀ q ∈ s.reports, q ≠ r → q ∈ s'.reports) ∧
        (∀ q ∈ s'.reports, q ∈ s.reports) ∧
        s'.reports.length + 1 = s.reports.length ∧
        s'.reportsFor d sess.userId = [] ∧
        s'.tasks = s.tasks ∧ s'.users = s.users) := by
  constructor
  · intro h
    unfold withdrawReport
    rw [h]
  · intro r hids huni hfind
    have hr : r ∈ s.reports := List.mem_of_find?_eq_some hfind
    have hpred : reportMatch sess.userId d r = true := List.find?_some hfind
    have heval : withdrawReport s sess d =
        ({ s with reports := s.reports.filter (fun q => !(q.id == r.id)) },
          Except.ok ()) := by
      unfold withdrawReport
      rw [hfind]
    refine ⟨_, heval, ?_, ?_, ?_, ?_, ?_, rfl, rfl⟩
    · intro hmem
      have h2 := (List.mem_filter.mp hmem).2
      simp at h2
    · intro q hq hne
      refine List.mem_filter.mpr ⟨hq, ?_⟩
      have hqid : q.id ≠ r.id := fun hh => hne (eq_of_mem_of_id_eq hids.1 hr hq hh)
      simpa using hqid
    · intro q hq
      exact List.mem_of_mem_filter hq
    · exact filter_ne_id_length hids.1 hr
    · simp only [Store.reportsFor]
      rw [List.filter_eq_nil_iff]
      intro a ha hpa
      have ha1 : a ∈ s.reports := List.mem_of_mem_filter ha
      have ha2 := (List.mem_filter.mp ha).2
      have hone : s.reports.filter (reportMatch sess.userId d) = [r] :=
        length_le_one_mem (huni d sess.userId) (List.mem_filter.mpr ⟨hr, hpred⟩)
      have hmem : a ∈ s.reports.filter (reportMatch sess.userId d) :=
        List.mem_filter.mpr ⟨ha1, hpa⟩
      rw [hone, List.mem_singleton] at hmem
      subst hmem
      simp at ha2

theorem claim_C6_withdraw_witness :
    (withdrawReport store1 aliceSession 0 = (store1, Except.error Err.notFound)) ∧
    (∃ s', withdrawReport store2 aliceSession 0 = (s', Except.ok ()) ∧
      report1 ∉ s'.reports ∧
      (∀ q ∈ store2.reports, q ≠ report1 → q ∈ s'.reports) ∧
      (∀ q ∈ s'.reports, q ∈ store2.reports) ∧
      s'.reports.length + 1 = store2.reports.length ∧
      s'.reportsFor 0 aliceSession.userId = [] ∧
      s'.tasks = store2.tasks ∧ s'.users = store2.users) :=
  ⟨(claim_C6_withdraw store1 aliceSession 0).1 (by decide),
    (claim_C6_withdraw store2 aliceSession 0).2 report1
      ⟨List.pairwise_singleton _ _, by intro r hrr; simp only [store2, List.mem_singleton] at hrr; subst hrr; decide⟩
      (fun dd uid => le_trans (List.length_filter_le _ _) (le_refl 1))
      (by decide)⟩

/-! ### Claims about the task registry and staff administration -/

/-- Claim C7: for every task update or delete request, a nonexistent task
id yields NotFound regardless of the caller's role or ownership (the
existence check precedes the ownership check); an existing task targeted
by a non-admin non-owner yields Unauthorized with the store unchanged; an
admin session may mutate any existing task. -/
theorem claim_C7_task_mutation_auth (s : Store) (sess : SessionPayload)
    (taskId : Nat) (b : TaskUpdate) :
    (s.tasks.find? (fun t => t.id == taskId) = none →
      updateTask s sess taskId b = (s, Except.error Err.notFound) ∧
      deleteTask s sess taskId = (s, Except.error Err.notFound)) ∧
    (∀ t, s.tasks.find? (fun t0 => t0.id == taskId) = some t →
      sess.role ≠ "admin" → t.userId ≠ sess.userId →
      updateTask s sess taskId b = (s, Except.error Err.unauthorized) ∧
      deleteTask s sess taskId = (s, Except.error Err.unauthorized)) ∧
    (∀ t, s.tasks.find? (fun t0 => t0.id == taskId) = some t →
      sess.role = "admin" →
      (updateTask s sess taskId b).2 = Except.ok (taskUpdateRow t b) ∧
      (deleteTask s sess taskId).2 = Except.ok ()) := by
  refine ⟨?_, ?_, ?_⟩
  · intro h
    constructor
    · unfold updateTask
      rw [h]
    · unfold deleteTask
      rw [h]
  · intro t hfind hrole huid
    have hcond : (sess.role != "admin" && t.userId != sess.userId) = true := by
      simp [hrole, huid]
    constructor
    · simp only [updateTask, hfind]
      rw [if_pos hcond]
    · simp only [deleteTask, hfind]
      rw [if_pos hcond]
  · intro t hfind hrole
    have hcond : ¬((sess.role != "admin" && t.userId != sess.userId) = true) := by
      simp [hrole]
    constructor
    · simp only [updateTask, hfind]
      rw [if_neg hcond]
    · simp only [deleteTask, hfind]
      rw [if_neg hcond]

theorem claim_C7_task_mutation_auth_witness :
    (updateTask store1 bobSession 5 ⟨some "x", none, none⟩ =
        (store1, Except.error Err.notFound) ∧
      deleteTask store1 bobSession 5 = (store1, Except.error Err.notFound)) ∧
    (updateTask store1 bobSession 1 ⟨some "x", none, none⟩ =
        (store1, Except.error Err.unauthorized) ∧
      deleteTask store1 bobSession 1 = (store1, Except.error Err.unauthorized)) ∧
    ((updateTask store1 adminSession 1 ⟨some "x", none, none⟩).2 =
        Except.ok (taskUpdateRow task1 ⟨some "x", none, none⟩) ∧
      (deleteTask store1 adminSession 1).2 = Except.ok ()) :=
  ⟨(claim_C7_task_mutation_auth store1 bobSession 5 ⟨some "x", none, none⟩).1 (by decide),
    (claim_C7_task_mutation_auth store1 bobSession 1 ⟨some "x", none, none⟩).2.1 task1
      (by decide) (by decide) (by decide),
    (claim_C7_task_mutation_auth store1 adminSession 1 ⟨some "x", none, none⟩).2.2 task1
      (by decide) (by decide)⟩

/-- Claim C8: every authorized task update is partial — each of taskName,
plan and result changes exactly to the supplied value when present and
keeps its prior value when omitted, while the task's id, date and userId
always keep their prior values. -/
theorem claim_C8_partial_update (s : Store) (sess : SessionPayload) (taskId : Nat)
    (b : TaskUpdate) (t : Task)
    (hfind : s.tasks.find? (fun t0 => t0.id == taskId) = some t)
    (hauth : sess.role = "admin" ∨ t.userId = sess.userId) :
    ∃ s', updateTask s sess taskId b = (s', Except.ok (taskUpdateRow t b)) ∧
      (taskUpdateRow t b).taskName = b.taskName.getD t.taskName ∧
      (taskUpdateRow t b).plan = b.plan.getD t.plan ∧
      (taskUpdateRow t b).result = b.result.getD t.result ∧
      (taskUpdateRow t b).id = t.id ∧ (taskUpdateRow t b).date = t.date ∧
      (taskUpdateRow t b).userId = t.userId := by
  have hcond : ¬((sess.role != "admin" && t.userId != sess.userId) = true) := by
    rcases hauth with h | h <;> simp [h]
  refine ⟨{ s with tasks := s.tasks.map (fun q =>
      if q.id == taskId then taskUpdateRow t b else q) },
    ?_, rfl, rfl, rfl, rfl, rfl, rfl⟩
  simp only [updateTask, hfind]
  rw [if_neg hcond]

theorem claim_C8_partial_update_witness :
    ∃ s', updateTask store1 aliceSession 1 ⟨none, some "p2", none⟩ =
        (s', Except.ok (taskUpdateRow task1 ⟨none, some "p2", none⟩)) ∧
      (taskUpdateRow task1 ⟨none, some "p2", none⟩).taskName =
        (Option.getD none task1.taskName) ∧
      (taskUpdateRow task1 ⟨none, some "p2", none⟩).plan =
        (Option.getD (some "p2") task1.plan) ∧
      (taskUpdateRow task1 ⟨none, some "p2", none⟩).result =
        (Option.getD none task1.result) ∧
      (taskUpdateRow task1 ⟨none, some "p2", none⟩).id = task1.id ∧
      (taskUpdateRow task1 ⟨none, some "p2", none⟩).date = task1.date ∧
      (taskUpdateRow task1 ⟨none, some "p2", none⟩).userId = task1.userId :=
  claim_C8_partial_update store1 aliceSession 1 ⟨none, some "p2", none⟩ task1
    (by decide) (Or.inr (by decide))

/-- Claim C9: for every staff (non-admin) session, the task list returns
only tasks owned by the session's user, and the result is identical for
any two values of the `userId` query parameter — the parameter is ignored
for staff callers. -/
theorem claim_C9_staff_list_scope (s : Store) (sess : SessionPayload)
    (h : sess.role = "staff") :
    (∀ dateQ q1 q2, listTasks s sess dateQ q1 = listTasks s sess dateQ q2) ∧
    (∀ dateQ q t, t ∈ listTasks s sess dateQ q → t.userId = sess.userId) := by
  have hadm : (sess.role == "admin") = false := by
    rw [h]
    decide
  have hstf : (sess.role == "staff") = true := by
    rw [h]
    decide
  have hscope : ∀ q, taskUserScope s sess q =
      s.tasks.filter (fun t => t.userId == sess.userId) := by
    intro q
    unfold taskUserScope
    rw [hadm]
    simp only [Bool.false_and, Bool.false_eq_true, if_false, hstf, if_true]
  constructor
  · intro dateQ q1 q2
    unfold listTasks
    cases dateQ <;> rw [hscope q1, hscope q2]
  · intro dateQ q t hmem
    unfold listTasks at hmem
    cases dateQ with
    | none =>
      rw [hscope q] at hmem
      simpa using (List.mem_filter.mp hmem).2
    | some dd =>
      rw [hscope q] at hmem
      have h1 := List.mem_of_mem_filter hmem
      simpa using (List.mem_filter.mp h1).2

theorem claim_C9_staff_list_scope_witness :
    listTasks store1 aliceSession (some 0) (some 2) =
      listTasks store1 aliceSession (some 0) none ∧
    (task1 ∈ listTasks store1 aliceSession none (some 2) → task1.userId = aliceSession.userId) :=
  ⟨(claim_C9_staff_list_scope store1 aliceSession (by decide)).1 (some 0) (some 2) none,
    (claim_C9_staff_list_scope store1 aliceSession (by decide)).2 none (some 2) task1⟩

/-- Claim C10 counterexample: a staff-update request by an admin session
with an empty username in the body, targeting the admin account, fails
with Validation — the body validation precedes the existence check — so
the unconditional NotFound form of the claim is false. -/
theorem claim_C10_counterexample :
    storeU.users.find? (fun v => v.id == 9) = some adminUser ∧
    adminUser.role ≠ "staff" ∧
    updateStaff storeU adminSession 9 "" none "media_buyer" ≠
      (storeU, Except.error Err.notFound) ∧
    updateStaff storeU adminSession 9 "" none "media_buyer" =
      (storeU, Except.error Err.validation) :=
  ⟨by decide, by decide, by decide, by decide⟩

/-- Claim C10 (amended): for every staff-delete request by an admin
session, and every staff-update request whose body supplies a username and
a position, if the target id refers to an existing user whose role is not
staff — in particular an admin account — the operation fails with NotFound
and mutates nothing; a staff-update whose body fails validation also
mutates nothing, failing with Validation instead; so admin accounts can
never be modified or deleted through the staff endpoints. -/
theorem claim_C10_staff_guard (s : Store) (sess : SessionPayload) (staffId : Nat)
    (username : String) (password : Option String) (pos : String)
    (hadmin : sess.role = "admin") (u : User)
    (hfind : s.users.find? (fun v => v.id == staffId) = some u)
    (hrole : u.role ≠ "staff") :
    (username ≠ "" → pos ≠ "" →
      updateStaff s sess staffId username password pos =
        (s, Except.error Err.notFound)) ∧
    ((username = "" ∨ pos = "") →
      updateStaff s sess staffId username password pos =
        (s, Except.error Err.validation)) ∧
    deleteStaff s sess staffId = (s, Except.error Err.notFound) := by
  have hguard : ¬((sess.role != "admin") = true) := by
    simp [hadmin]
  have hustaff : (u.role != "staff") = true := by
    simp [hrole]
  refine ⟨?_, ?_, ?_⟩
  · intro hu hp
    simp only [updateStaff, hfind]
    rw [if_neg hguard, if_neg (by simp [hu, hp]), if_pos hustaff]
  · intro hval
    simp only [updateStaff]
    rcases hval with hval | hval <;>
      rw [if_neg hguard, if_pos (by simp [hval])]
  · simp only [deleteStaff, hfind]
    rw [if_neg hguard, if_pos hustaff]

theorem claim_C10_staff_guard_witness :
    updateStaff storeU adminSession 9 "newname" (some "pw") "media_buyer" =
      (storeU, Except.error Err.notFound) ∧
    updateStaff storeU adminSession 9 "" (some "pw") "media_buyer" =
      (storeU, Except.error Err.validation) ∧
    deleteStaff storeU adminSession 9 = (storeU, Except.error Err.notFound) :=
  ⟨(claim_C10_staff_guard storeU adminSession 9 "newname" (some "pw") "media_buyer"
      (by decide) adminUser (by decide) (by decide)).1 (by decide) (by decide),
    (claim_C10_staff_guard storeU adminSession 9 "" (some "pw") "media_buyer"
      (by decide) adminUser (by decide) (by decide)).2.1 (Or.inl (by decide)),
    (claim_C10_staff_guard storeU adminSession 9 "newname" (some "pw") "media_buyer"
      (by decide) adminUser (by decide) (by decide)).2.2⟩

end Adv
